import Mathlib

/-!
Verification of the video-tracker record store.

The core of the repository is a CSV-file-backed record store
(`src/fastapi-app/csv_manager.py`, reproduced nearly verbatim in the
other framework directories) plus a date validator
(`src/flask-app/models.py`, `src/django-app/video_tracker/videos/serializers.py`).

The embedding below models:

* the backing file as `Option (List RawRow)` — `none` stands for
  "file absent or of size zero" (the two states that `_file_exists`
  conflates); `some rows` stands for a file with the mandated header
  line `id,name,href,post_date,views_count` followed by `rows`.
* a persisted CSV data row as `RawRow`: the list of its physical
  cells, as `csv.reader` yields them (blank lines yield no row, so
  every row has at least one cell). Under the mandated header,
  `csv.DictReader` turns the cells into the row dictionary: column j
  holds cell j when the row is long enough, and the fill value `None`
  (`restval`) when the row is short; extra cells beyond the five
  columns land under the rest key and are ignored by the read loop.
  So a dictionary value is `None` exactly on a suffix of the columns.
* decoding one row as `decodeRow`, three-way: `ok` (all five cells
  present, id and views_count parse), `skip` (a `ValueError` from
  `int(...)` on non-integer text — the per-row handler catches it and
  the loop continues), or `abort` (a short row: `int(None)` raises
  `TypeError`, which `except (ValueError, KeyError)` does not catch,
  so the whole read fails and the outer handler returns the empty
  list, dropping the well-formed rows too).
* Python's `int(...)` coercion on strings as `pyInt` (whitespace
  stripping, optional sign, decimal digits with single underscores
  allowed between digits; digits are modelled as ASCII).
* CPython's stable `list.sort(key=..., reverse=...)` as `pySort`
  (reverse is implemented by reversing the list before and after a
  stable ascending sort, which is exactly what CPython does).

The writing operations re-emit kept rows through `csv.DictWriter` at
the dictionary level; the model identifies a kept row with its value.
-/

namespace VideoTracker

/-- A decoded video record: the typed unit of storage
(`id`, `name`, `href`, `post_date`, `views_count`), as produced by the
read loop of `get_videos` and by the pydantic/DRF boundary validators. -/
structure Video where
  id : Int
  name : String
  href : String
  post_date : String
  views_count : Int
deriving DecidableEq

/-- A raw persisted CSV data row: the list of its physical cells in
file order, as `csv.reader` yields it. -/
structure RawRow where
  cells : List String
deriving DecidableEq

/-- The `id` entry of the row dictionary `csv.DictReader` builds under
the mandated header: the first cell, or `None` (modelled `none`) when
the row has no such cell. `csv.reader` yields no row for a blank line,
so for every real row this entry is present. -/
def RawRow.id (r : RawRow) : Option String := r.cells[0]?

/-- The `name` entry of the row dictionary: cell 1 or the `None` fill. -/
def RawRow.name (r : RawRow) : Option String := r.cells[1]?

/-- The `href` entry of the row dictionary: cell 2 or the `None` fill. -/
def RawRow.href (r : RawRow) : Option String := r.cells[2]?

/-- The `post_date` entry of the row dictionary: cell 3 or the `None`
fill. -/
def RawRow.post_date (r : RawRow) : Option String := r.cells[3]?

/-- The `views_count` entry of the row dictionary: cell 4 or the
`None` fill. -/
def RawRow.views_count (r : RawRow) : Option String := r.cells[4]?

/-- Valid digit run for Python `int()`: a nonempty sequence of decimal
digits in which single underscores may occur between two digits
(`int("1_0") = 10`, while `"_1"`, `"1_"`, `"1__0"` are rejected). -/
def pyDigitRun : List Char → Bool
  | [] => false
  | [c] => c.isDigit
  | c :: c2 :: rest =>
    c.isDigit && (if c2 == '_' then pyDigitRun rest else pyDigitRun (c2 :: rest))

/-- Numeric value of a digit run, skipping the grouping underscores. -/
def digitsVal (cs : List Char) : Nat :=
  cs.foldl (fun n c => if c == '_' then n else 10 * n + (c.toNat - 48)) 0

/-- Strip leading and trailing whitespace, as Python `str.strip()` does
before `int()` parses a string. -/
def pyStrip (cs : List Char) : List Char :=
  ((cs.dropWhile Char.isWhitespace).reverse.dropWhile Char.isWhitespace).reverse

/-- Python `int(...)` applied to the character list of a string:
optional surrounding whitespace, an optional sign, then a digit run. -/
def pyIntL (cs0 : List Char) : Option Int :=
  match pyStrip cs0 with
  | [] => none
  | c :: rest =>
    if c == '-' then
      if pyDigitRun rest then some (-(digitsVal rest : Int)) else none
    else if c == '+' then
      if pyDigitRun rest then some ((digitsVal rest : Int)) else none
    else
      if pyDigitRun (c :: rest) then some ((digitsVal (c :: rest) : Int)) else none

/-- Python `int(...)` on a string, `none` when `int` would raise `ValueError`. -/
def pyInt (s : String) : Option Int :=
  pyIntL s.toList

/-- ASCII lowercasing of a string, modelling Python `str.lower()` on the
ASCII inputs that occur here. -/
def pyLower (s : String) : String :=
  ⟨s.data.map Char.toLower⟩

/-- Outcome of the body of the `get_videos` read loop on one row. -/
inductive DecodeResult where
  /-- The row decoded; the record is appended to the result. -/
  | ok (v : Video)
  /-- `int(...)` raised `ValueError` on non-integer cell text; the
  per-row `except (ValueError, KeyError)` catches it, the row is
  skipped (logged) and the loop continues. -/
  | skip
  /-- The row is short: under the mandated header `DictReader` fills
  the missing trailing columns with `None`, `"views_count" in row`
  still holds, and `int(None)` raises `TypeError`, which the per-row
  handler does not catch — the exception reaches the outer handler,
  failing the whole read. -/
  | abort
deriving DecidableEq

/-- The decode step of the `get_videos` read loop, for one row. The
Python body first replaces `row["views_count"]` by
`int(row["views_count"])` (its cell text, or the `None` fill for a
short row), then builds the record with `int(row["id"])` and the
three text columns. With at least five cells every dictionary value
is its cell text, so only `ValueError` (skip) can occur; with fewer,
`row["views_count"]` is `None` and `int(None)` aborts the read. -/
def decodeRow (r : RawRow) : DecodeResult :=
  match r.cells with
  | i :: n :: h :: p :: v :: _ =>
    match pyInt v with
    | none => DecodeResult.skip
    | some vv =>
      match pyInt i with
      | none => DecodeResult.skip
      | some iv => DecodeResult.ok ⟨iv, n, h, p, vv⟩
  | _ => DecodeResult.abort

/-- The `get_videos` read loop over the data rows: `ok` records are
collected in order, `skip` rows are dropped and the loop continues,
and an `abort` anywhere fails the whole read (`none`), whatever comes
before or after it. -/
def readRows : List RawRow → Option (List Video)
  | [] => some []
  | r :: rest =>
    match decodeRow r with
    | DecodeResult.ok v => (readRows rest).map (fun vs => v :: vs)
    | DecodeResult.skip => readRows rest
    | DecodeResult.abort => none

/-- What the caller of the read loop sees: the decoded records in file
order, or the empty list when the read aborted (the outer
`except Exception` of `get_videos` returns `{"videos": []}`). -/
def decodedVideos (rows : List RawRow) : List Video :=
  (readRows rows).getD []

/-- The three recognized `sort_by` values of `get_videos`. -/
def sortKeys : List String := ["name", "post_date", "views_count"]

/-- The `sort_key` comparator of `get_videos`, as a boolean `≤` on
decoded records: `views_count` compares numerically, `post_date`
compares the raw strings, and any other key (only `"name"` reaches this
branch) compares the lowercased names. -/
def videoLe (sb : String) (a b : Video) : Bool :=
  if sb == "views_count" then decide (a.views_count ≤ b.views_count)
  else if sb == "post_date" then decide (a.post_date ≤ b.post_date)
  else decide (pyLower a.name ≤ pyLower b.name)

/-- CPython `list.sort(key=..., reverse=rev)`: a stable ascending sort;
`reverse=True` is implemented by reversing the list before and after
the ascending sort (so ties keep their original relative order). -/
def pySort (le : Video → Video → Bool) (rev : Bool) (l : List Video) : List Video :=
  if rev then (List.mergeSort l.reverse le).reverse else List.mergeSort l le

/-- `get_videos(sort_by, order)`: absent or empty file yields `[]`;
otherwise the rows are decoded by the read loop (`ValueError` rows are
skipped, a `TypeError` on a short row fails the whole read and the
outer handler yields `[]` without sorting), and if `sort_by` is one of
the three recognized keys the decoded list is sorted, descending
exactly when `order.lower() == "desc"`. -/
def get_videos (st : Option (List RawRow)) (sort_by : Option String) (order : String) :
    List Video :=
  match st with
  | none => []
  | some rows =>
    match readRows rows with
    | none => []
    | some videos =>
      match sort_by with
      | some sb =>
        if sb ∈ sortKeys then pySort (videoLe sb) (pyLower order == "desc") videos
        else videos
      | none => videos

/-- The CSV row written for a video by `add_video`: every field is
serialized as text, `id` and `views_count` through Python `str(...)`. -/
def encodeRow (v : Video) : RawRow :=
  ⟨[toString v.id, v.name, v.href, v.post_date, toString v.views_count]⟩

/-- `add_video(video)`: on an absent or empty file, create it with the
header and the one row; otherwise scan for a row whose `id` text equals
`str(video["id"])` and fail without writing when found, else append. -/
def add_video (st : Option (List RawRow)) (v : Video) : Bool × Option (List RawRow) :=
  match st with
  | none => (true, some [encodeRow v])
  | some rows =>
    if rows.any (fun r => r.id == some (toString v.id)) then (false, some rows)
    else (true, some (rows ++ [encodeRow v]))

/-- `delete_video(id)`: scan the rows, keeping every row whose `id`
text differs from `str(id)`; if no row matched, fail without writing,
otherwise rewrite the file with the kept rows. -/
def delete_video (st : Option (List RawRow)) (i : Int) : Bool × Option (List RawRow) :=
  match st with
  | none => (false, none)
  | some rows =>
    if rows.any (fun r => r.id == some (toString i)) then
      (true, some (rows.filter (fun r => r.id != some (toString i))))
    else (false, some rows)

/-- The replacement row built by `update_video`: the `id` column is
forced to `str(id)` (the path id), the other columns come from the new
record, `views_count` through `str(...)`. -/
def updatedRow (i : Int) (nv : Video) : RawRow :=
  ⟨[toString i, nv.name, nv.href, nv.post_date, toString nv.views_count]⟩

/-- `update_video(id, updated_video)`: every row whose `id` text equals
`str(id)` is replaced by `updatedRow`; if none matched, fail without
writing; otherwise rewrite the file and return the stored row with
`id` and `views_count` coerced back through `int(...)` (the source
performs this coercion after the write, so the model keeps the write in
both branches of the coercion match). -/
def update_video (st : Option (List RawRow)) (i : Int) (nv : Video) :
    (Bool × Option Video) × Option (List RawRow) :=
  match st with
  | none => ((false, none), none)
  | some rows =>
    if rows.any (fun r => r.id == some (toString i)) then
      let newRows := rows.map (fun r =>
        if r.id == some (toString i) then updatedRow i nv else r)
      match pyInt (toString i), pyInt (toString nv.views_count) with
      | some iv, some vc =>
        ((true, some ⟨iv, nv.name, nv.href, nv.post_date, vc⟩), some newRows)
      | _, _ => ((false, none), some newRows)
    else ((false, none), some rows)

/-- Numeric value of two digit characters. -/
def digit2 (a b : Char) : Nat := 10 * (a.toNat - 48) + (b.toNat - 48)

/-- Numeric value of four digit characters. -/
def digit4 (a b c d : Char) : Nat :=
  1000 * (a.toNat - 48) + 100 * (b.toNat - 48) + 10 * (c.toNat - 48) + (d.toNat - 48)

/-- The shape accepted by `\d{4}-\d{2}-\d{2}` on a whole string:
exactly ten characters, digits in the year/month/day positions and
hyphens between them (digits modelled as ASCII). -/
def strict10 : List Char → Bool
  | [y1, y2, y3, y4, h1, m1, m2, h2, d1, d2] =>
    y1.isDigit && y2.isDigit && y3.isDigit && y4.isDigit && h1 == '-' &&
    m1.isDigit && m2.isDigit && h2 == '-' && d1.isDigit && d2.isDigit
  | _ => false

/-- Python `re.match(r"^\d{4}-\d{2}-\d{2}$", v)`: in Python an
unanchored-by-`re.MULTILINE` `$` also matches just before a final
newline, so an eleven-character string ending in a newline whose first
ten characters have the date shape matches as well. -/
def pyDateRegexMatch (cs : List Char) : Bool :=
  strict10 cs ||
  (match cs with
   | [y1, y2, y3, y4, h1, m1, m2, h2, d1, d2, nl] =>
     nl == '\n' && strict10 [y1, y2, y3, y4, h1, m1, m2, h2, d1, d2]
   | _ => false)

/-- The `%m` directive of `strptime`, i.e. the CPython `TimeRE`
alternation `1[0-2]|0[1-9]|[1-9]`: a two-digit match is taken exactly
when its value is between 1 and 12, otherwise a single nonzero digit
matches on its own. -/
def parseMonthRe : List Char → Option (Nat × List Char)
  | a :: b :: rest =>
    if a.isDigit && b.isDigit && 1 ≤ digit2 a b && digit2 a b ≤ 12 then
      some (digit2 a b, rest)
    else if a.isDigit && 1 ≤ a.toNat - 48 then some (a.toNat - 48, b :: rest)
    else none
  | [a] => if a.isDigit && 1 ≤ a.toNat - 48 then some (a.toNat - 48, []) else none
  | [] => none

/-- The `%d` directive of `strptime`, i.e. the CPython `TimeRE`
alternation `3[01]|[12]\d|0[1-9]|[1-9]`: a two-digit match is taken
exactly when its value is between 1 and 31, otherwise a single nonzero
digit matches on its own. -/
def parseDayRe : List Char → Option (Nat × List Char)
  | a :: b :: rest =>
    if a.isDigit && b.isDigit && 1 ≤ digit2 a b && digit2 a b ≤ 31 then
      some (digit2 a b, rest)
    else if a.isDigit && 1 ≤ a.toNat - 48 then some (a.toNat - 48, b :: rest)
    else none
  | [a] => if a.isDigit && 1 ≤ a.toNat - 48 then some (a.toNat - 48, []) else none
  | [] => none

/-- The format regex `strptime` compiles for `"%Y-%m-%d"`: exactly four
digits for `%Y`, a hyphen, `%m`, a hyphen, `%d`; `strptime` raises on
unconverted trailing data, so the day match must consume the rest of
the string. -/
def parseYmdRe (cs : List Char) : Option (Nat × Nat × Nat) :=
  match cs with
  | y1 :: y2 :: y3 :: y4 :: sep1 :: rest2 =>
    if y1.isDigit && y2.isDigit && y3.isDigit && y4.isDigit && sep1 == '-' then
      match parseMonthRe rest2 with
      | some (m, sep2 :: rest4) =>
        if sep2 == '-' then
          match parseDayRe rest4 with
          | some (d, []) => some (digit4 y1 y2 y3 y4, m, d)
          | _ => none
        else none
      | _ => none
    else none
  | _ => none

/-- `calendar.isleap` / the Gregorian leap-year rule used by `datetime`. -/
def isLeapYear (y : Nat) : Bool :=
  y % 4 == 0 && (y % 100 != 0 || y % 400 == 0)

/-- Days in a month of the proleptic Gregorian calendar, as used by the
`datetime` constructor that `strptime` calls. -/
def monthDays (y m : Nat) : Nat :=
  if m == 2 then (if isLeapYear y then 29 else 28)
  else if m == 4 || m == 6 || m == 9 || m == 11 then 30
  else 31

/-- `datetime.strptime(v, "%Y-%m-%d")` succeeding: the format regex
matches the whole string, and the `datetime(year, month, day)`
constructor accepts the parsed fields (`MINYEAR = 1`, and the day must
exist in that month of that year). -/
def strptimeDateOk (cs : List Char) : Bool :=
  match parseYmdRe cs with
  | some (y, m, d) => 1 ≤ y && d ≤ monthDays y m
  | none => false

/-- `Video.validate_date_format` / `VideoSerializer.validate_post_date`:
the value passes the `^\d{4}-\d{2}-\d{2}$` regex check and then
`datetime.strptime(v, "%Y-%m-%d")` does not raise. -/
def validate_date_format (s : String) : Bool :=
  pyDateRegexMatch s.toList && strptimeDateOk s.toList

/-- Modelled from the spec's words, for comparison with the code-side
validator: the string "matches the fixed-width pattern
`\d{4}-\d{2}-\d{2}`", read as exactly `DDDD-DD-DD` with ASCII digits. -/
def specFixedDatePattern : List Char → Bool
  | [y1, y2, y3, y4, h1, m1, m2, h2, d1, d2] =>
    y1.isDigit && y2.isDigit && y3.isDigit && y4.isDigit && h1 == '-' &&
    m1.isDigit && m2.isDigit && h2 == '-' && d1.isDigit && d2.isDigit
  | _ => false

/-- Modelled from the spec's words: the parsed fields form "a valid
calendar date" of the (proleptic Gregorian, year at least 1) calendar. -/
def specValidCalendarDate (y m d : Nat) : Bool :=
  1 ≤ y && 1 ≤ m && m ≤ 12 && 1 ≤ d && d ≤ monthDays y m

/-- Modelled from the spec's words: accept exactly the strings that
match the fixed-width pattern and whose digits form a valid calendar
date. -/
def specAcceptDate (cs : List Char) : Bool :=
  match cs with
  | [y1, y2, y3, y4, h1, m1, m2, h2, d1, d2] =>
    y1.isDigit && y2.isDigit && y3.isDigit && y4.isDigit && h1 == '-' &&
    m1.isDigit && m2.isDigit && h2 == '-' && d1.isDigit && d2.isDigit &&
    specValidCalendarDate (digit4 y1 y2 y3 y4) (digit2 m1 m2) (digit2 d1 d2)
  | _ => false

theorem isDigit_toNat {c : Char} (h : c.isDigit = true) :
    48 ≤ c.toNat ∧ c.toNat ≤ 57 := by
  simp only [Char.isDigit, Bool.and_eq_true, decide_eq_true_eq] at h
  obtain ⟨h1, h2⟩ := h
  constructor
  · exact h1
  · exact h2

theorem isDigit_beq_minus {c : Char} (h : c.isDigit = true) :
    (c == '-') = false := by
  apply beq_eq_false_iff_ne.mpr
  intro hc
  subst hc
  exact absurd h (by decide)

theorem videoLe_trans (sb : String) : ∀ a b c : Video,
    videoLe sb a b = true → videoLe sb b c = true → videoLe sb a c = true := by
  intro a b c
  unfold videoLe
  split
  · simp only [decide_eq_true_eq]
    exact le_trans
  · split
    · simp only [decide_eq_true_eq]
      exact le_trans
    · simp only [decide_eq_true_eq]
      exact le_trans

theorem videoLe_total (sb : String) : ∀ a b : Video,
    (videoLe sb a b || videoLe sb b a) = true := by
  intro a b
  unfold videoLe
  split
  · simp only [Bool.or_eq_true, decide_eq_true_eq]
    exact le_total _ _
  · split
    · simp only [Bool.or_eq_true, decide_eq_true_eq]
      exact le_total _ _
    · simp only [Bool.or_eq_true, decide_eq_true_eq]
      exact le_total _ _

/-- A stable sort does not disturb the elements of any class that is
totally tied under the comparator: filtering the sorted list down to
such a class gives the same list as filtering the input. -/
theorem filter_mergeSort_ties (le : Video → Video → Bool)
    (htrans : ∀ a b c : Video, le a b = true → le b c = true → le a c = true)
    (htot : ∀ a b : Video, (le a b || le b a) = true)
    (p : Video → Bool) (hp : ∀ a b : Video, p a = true → p b = true → le a b = true)
    (l : List Video) :
    (List.mergeSort l le).filter p = l.filter p := by
  have hpw : (l.filter p).Pairwise (fun a b => le a b = true) := by
    apply List.pairwise_of_forall_mem_list
    intro a ha b hb
    exact hp a b (List.of_mem_filter ha) (List.of_mem_filter hb)
  have hsub : List.Sublist (l.filter p) (List.mergeSort l le) :=
    List.sublist_mergeSort htrans htot hpw (List.filter_sublist l)
  have hsub2 : List.Sublist ((l.filter p).filter p) ((List.mergeSort l le).filter p) :=
    hsub.filter p
  rw [List.filter_filter] at hsub2
  have hself : (fun a => p a && p a) = p := by
    funext a
    exact Bool.and_self (p a)
  rw [hself] at hsub2
  have hlen : ((List.mergeSort l le).filter p).length = (l.filter p).length :=
    ((List.mergeSort_perm l le).filter p).length_eq
  exact (hsub2.eq_of_length hlen.symm).symm

/-- With no ties among the elements being sorted, the stable ascending
sort of the reversed list equals the sort of the list itself. -/
theorem mergeSort_reverse_of_no_ties (le : Video → Video → Bool)
    (htrans : ∀ a b c : Video, le a b = true → le b c = true → le a c = true)
    (htot : ∀ a b : Video, (le a b || le b a) = true)
    (l : List Video)
    (hd : l.Pairwise (fun a b => ¬(le a b = true ∧ le b a = true))) :
    List.mergeSort l.reverse le = List.mergeSort l le := by
  have hanti : ∀ a b : Video, a ∈ List.mergeSort l.reverse le →
      b ∈ List.mergeSort l le → le a b = true → le b a = true → a = b := by
    intro a b ha hb hab hba
    rw [List.mem_mergeSort, List.mem_reverse] at ha
    rw [List.mem_mergeSort] at hb
    by_contra hne
    have hsym : Symmetric (fun a b : Video => ¬(le a b = true ∧ le b a = true)) := by
      intro x y hxy hc
      exact hxy ⟨hc.2, hc.1⟩
    exact (hd.forall hsym) ha hb hne ⟨hab, hba⟩
  exact List.Perm.eq_of_sorted hanti
    (List.sorted_mergeSort htrans htot l.reverse)
    (List.sorted_mergeSort htrans htot l)
    ((List.mergeSort_perm l.reverse le).trans
      ((List.reverse_perm l).trans (List.mergeSort_perm l le).symm))

/-! Concrete rows used in witnesses and counterexamples. -/

/-- Canonically encoded row: id 1, views 100. -/
def rowV100 : RawRow :=
  ⟨["1", "alpha", "u1", "2025-01-01", "100"]⟩

/-- Canonically encoded row: id 2, views 200. -/
def rowV200 : RawRow :=
  ⟨["2", "beta", "u2", "2025-01-02", "200"]⟩

/-- Canonically encoded row: id 3, views 300. -/
def rowV300 : RawRow :=
  ⟨["3", "gamma", "u3", "2025-01-03", "300"]⟩

/-- A well-formed but non-canonically encoded row: its id text `"05"`
decodes to the integer 5, yet differs from `str(5)`. -/
def rowPad05 : RawRow :=
  ⟨["05", "padded", "u5", "2025-01-05", "50"]⟩

/-- A malformed row: a short row holding only its id cell `"7"`; its
other columns are the `None` fill, so the read loop aborts on it and
no record with id 7 is ever visible. -/
def rowMal7 : RawRow :=
  ⟨["7"]⟩

/-- A full row whose id text is not integer text: the read loop skips
it with a `ValueError`. -/
def rowBadId : RawRow :=
  ⟨["x", "bad", "u9", "2025-01-09", "90"]⟩

/-- Tie row: id 1, views 100. -/
def rowTieA : RawRow :=
  ⟨["1", "a", "u1", "2025-01-01", "100"]⟩

/-- Tie row: id 2, same views 100. -/
def rowTieB : RawRow :=
  ⟨["2", "b", "u2", "2025-01-02", "100"]⟩

/-- C9: `get_videos` on an absent or empty backing file returns the
empty sequence, never an error; and any `sort_by` value outside
`{name, post_date, views_count}` — including unset — is treated as no
sort, so the decoded rows come back in original file order. -/
theorem c9_empty_state_and_unknown_sort :
    (∀ (sb : Option String) (order : String), get_videos none sb order = []) ∧
    (∀ (rows : List RawRow) (order : String) (sb : Option String),
      sb ∉ sortKeys.map some →
      get_videos (some rows) sb order = decodedVideos rows) := by
  constructor
  · intro sb order
    rfl
  · intro rows order sb hsb
    cases hre : readRows rows with
    | none => simp [get_videos, decodedVideos, hre]
    | some vs =>
      simp only [get_videos, decodedVideos, hre, Option.getD_some]
      match sb with
      | none => rfl
      | some s =>
        have hs : s ∉ sortKeys := by
          intro hc
          exact hsb (List.mem_map_of_mem some hc)
        simp [hs]

/-- Witness for C9 at concrete inputs: empty state, and an
unrecognized sort key over a two-row file. -/
theorem c9_witness :
    get_videos none (some "views_count") "asc" = [] ∧
    get_videos (some [rowV300, rowBadId]) (some "bogus") "asc"
      = decodedVideos [rowV300, rowBadId] :=
  ⟨c9_empty_state_and_unknown_sort.1 (some "views_count") "asc",
   c9_empty_state_and_unknown_sort.2 [rowV300, rowBadId] "asc" (some "bogus") (by decide)⟩

/-- C10: for a recognized sort key, descending order is applied exactly
when the order string lowercased equals `"desc"`; every other order
string — not only `"asc"` — yields the ascending result. -/
theorem c10_desc_iff_lowercase_desc (order : String) (sb : String)
    (st : Option (List RawRow)) (hsb : sb ∈ sortKeys) :
    get_videos st (some sb) order =
      if pyLower order = "desc" then get_videos st (some sb) "desc"
      else get_videos st (some sb) "asc" := by
  match st with
  | none => split <;> rfl
  | some rows =>
    cases hre : readRows rows with
    | none => simp only [get_videos, hre]; split <;> rfl
    | some vs =>
      simp only [get_videos, hre, if_pos hsb]
      split
      · rename_i h
        rw [beq_iff_eq.mpr h, (by decide : (pyLower "desc" == "desc") = true)]
      · rename_i h
        rw [beq_eq_false_iff_ne.mpr h, (by decide : (pyLower "asc" == "desc") = false)]

/-- Witness for C10: `"DESC"` and `"Desc"` both behave as `"desc"`,
and `"descending"` behaves as `"asc"`, on a concrete three-row file. -/
theorem c10_witness :
    (get_videos (some [rowV300, rowV100, rowV200]) (some "views_count") "DESC"
      = if pyLower "DESC" = "desc"
        then get_videos (some [rowV300, rowV100, rowV200]) (some "views_count") "desc"
        else get_videos (some [rowV300, rowV100, rowV200]) (some "views_count") "asc") ∧
    (get_videos (some [rowV300, rowV100, rowV200]) (some "views_count") "Desc"
      = if pyLower "Desc" = "desc"
        then get_videos (some [rowV300, rowV100, rowV200]) (some "views_count") "desc"
        else get_videos (some [rowV300, rowV100, rowV200]) (some "views_count") "asc") ∧
    (get_videos (some [rowV300, rowV100, rowV200]) (some "views_count") "descending"
      = if pyLower "descending" = "desc"
        then get_videos (some [rowV300, rowV100, rowV200]) (some "views_count") "desc"
        else get_videos (some [rowV300, rowV100, rowV200]) (some "views_count") "asc") ∧
    pyLower "DESC" = "desc" ∧ pyLower "Desc" = "desc" ∧ pyLower "descending" ≠ "desc" :=
  ⟨c10_desc_iff_lowercase_desc "DESC" "views_count" (some [rowV300, rowV100, rowV200])
      (by decide),
   c10_desc_iff_lowercase_desc "Desc" "views_count" (some [rowV300, rowV100, rowV200])
      (by decide),
   c10_desc_iff_lowercase_desc "descending" "views_count" (some [rowV300, rowV100, rowV200])
      (by decide),
   by decide, by decide, by decide⟩

theorem get_videos_asc (rows : List RawRow) (sb : String) (hsb : sb ∈ sortKeys) :
    get_videos (some rows) (some sb) "asc"
      = List.mergeSort (decodedVideos rows) (videoLe sb) := by
  cases hre : readRows rows with
  | none => simp [get_videos, decodedVideos, hre]
  | some vs =>
    simp only [get_videos, decodedVideos, hre, Option.getD_some, if_pos hsb, pySort]
    rw [(by decide : (pyLower "asc" == "desc") = false)]
    simp

theorem get_videos_desc (rows : List RawRow) (sb : String) (hsb : sb ∈ sortKeys) :
    get_videos (some rows) (some sb) "desc"
      = (List.mergeSort (decodedVideos rows).reverse (videoLe sb)).reverse := by
  cases hre : readRows rows with
  | none => simp [get_videos, decodedVideos, hre]
  | some vs =>
    simp only [get_videos, decodedVideos, hre, Option.getD_some, if_pos hsb, pySort]
    rw [(by decide : (pyLower "desc" == "desc") = true)]
    simp

/-- C8: for each recognized sort key, ascending List is sorted by that
key's comparator (`views_count` numerically, `post_date` on the raw
date strings, `name` case-insensitively) and is a permutation of the
decoded rows; on views [300, 100, 200], ascending sort by views yields
[100, 200, 300]. -/
theorem c8_sort_comparator_per_key :
    (∀ rows : List RawRow,
      (get_videos (some rows) (some "views_count") "asc").Pairwise
        (fun a b => a.views_count ≤ b.views_count) ∧
      List.Perm (get_videos (some rows) (some "views_count") "asc")
        (decodedVideos rows)) ∧
    (∀ rows : List RawRow,
      (get_videos (some rows) (some "post_date") "asc").Pairwise
        (fun a b => a.post_date ≤ b.post_date) ∧
      List.Perm (get_videos (some rows) (some "post_date") "asc")
        (decodedVideos rows)) ∧
    (∀ rows : List RawRow,
      (get_videos (some rows) (some "name") "asc").Pairwise
        (fun a b => pyLower a.name ≤ pyLower b.name) ∧
      List.Perm (get_videos (some rows) (some "name") "asc")
        (decodedVideos rows)) ∧
    (get_videos (some [rowV300, rowV100, rowV200]) (some "views_count") "asc").map
      Video.views_count = [100, 200, 300] := by
  refine ⟨fun rows => ⟨?_, ?_⟩, fun rows => ⟨?_, ?_⟩, fun rows => ⟨?_, ?_⟩, ?_⟩
  · rw [get_videos_asc rows "views_count" (by decide)]
    apply (List.sorted_mergeSort (videoLe_trans "views_count")
      (videoLe_total "views_count") (decodedVideos rows)).imp
    intro a b h
    simpa [videoLe] using h
  · rw [get_videos_asc rows "views_count" (by decide)]
    exact List.mergeSort_perm _ _
  · rw [get_videos_asc rows "post_date" (by decide)]
    apply (List.sorted_mergeSort (videoLe_trans "post_date")
      (videoLe_total "post_date") (decodedVideos rows)).imp
    intro a b h
    simpa [videoLe] using h
  · rw [get_videos_asc rows "post_date" (by decide)]
    exact List.mergeSort_perm _ _
  · rw [get_videos_asc rows "name" (by decide)]
    apply (List.sorted_mergeSort (videoLe_trans "name")
      (videoLe_total "name") (decodedVideos rows)).imp
    intro a b h
    simpa [videoLe] using h
  · rw [get_videos_asc rows "name" (by decide)]
    exact List.mergeSort_perm _ _
  · rw [get_videos_asc [rowV300, rowV100, rowV200] "views_count" (by decide)]
    rw [(by decide : decodedVideos [rowV300, rowV100, rowV200]
      = [⟨3, "gamma", "u3", "2025-01-03", 300⟩,
         ⟨1, "alpha", "u1", "2025-01-01", 100⟩,
         ⟨2, "beta", "u2", "2025-01-02", 200⟩])]
    simp [List.mergeSort, List.merge, videoLe]

/-- C7 counterexample: with two records tied on `views_count` (both
100), the descending result is not the reverse of the ascending
result: CPython's `reverse=True` keeps tied elements in their original
order, so both directions return the records in file order. -/
theorem c7_counterexample :
    get_videos (some [rowTieA, rowTieB]) (some "views_count") "desc"
      ≠ (get_videos (some [rowTieA, rowTieB]) (some "views_count") "asc").reverse := by
  rw [get_videos_desc _ _ (by decide), get_videos_asc _ _ (by decide)]
  rw [(by decide : decodedVideos [rowTieA, rowTieB]
    = [⟨1, "a", "u1", "2025-01-01", 100⟩, ⟨2, "b", "u2", "2025-01-02", 100⟩])]
  simp [List.mergeSort, List.merge, videoLe]

/-- C7 amended: `desc` is not an independent comparator but a reversed
stable ascending sort, so records that tie on the sort key keep their
ascending (original) relative order even when `order = desc`; the
descending result is the reverse of the ascending result exactly on
lists whose decoded records have no ties on the sort key. -/
theorem c7_amended_desc_stability (sb : String) (hsb : sb ∈ sortKeys)
    (rows : List RawRow) (v : Video) :
    ((get_videos (some rows) (some sb) "desc").filter
        (fun a => videoLe sb a v && videoLe sb v a)
      = (get_videos (some rows) (some sb) "asc").filter
        (fun a => videoLe sb a v && videoLe sb v a)) ∧
    ((decodedVideos rows).Pairwise
        (fun a b => ¬(videoLe sb a b = true ∧ videoLe sb b a = true)) →
      get_videos (some rows) (some sb) "desc"
        = (get_videos (some rows) (some sb) "asc").reverse) := by
  have hp : ∀ a b : Video,
      (videoLe sb a v && videoLe sb v a) = true →
      (videoLe sb b v && videoLe sb v b) = true → videoLe sb a b = true := by
    intro a b ha hb
    simp only [Bool.and_eq_true] at ha hb
    exact videoLe_trans sb a v b ha.1 hb.2
  constructor
  · rw [get_videos_desc rows sb hsb, get_videos_asc rows sb hsb]
    rw [List.filter_reverse]
    rw [filter_mergeSort_ties (videoLe sb) (videoLe_trans sb) (videoLe_total sb)
      (fun a => videoLe sb a v && videoLe sb v a) hp]
    rw [filter_mergeSort_ties (videoLe sb) (videoLe_trans sb) (videoLe_total sb)
      (fun a => videoLe sb a v && videoLe sb v a) hp]
    rw [List.filter_reverse, List.reverse_reverse]
  · intro hd
    rw [get_videos_desc rows sb hsb, get_videos_asc rows sb hsb]
    rw [mergeSort_reverse_of_no_ties (videoLe sb) (videoLe_trans sb) (videoLe_total sb)
      (decodedVideos rows) hd]

/-- Witness for C7 amended: tie preservation on a tied two-row file,
and reversal on a three-row file with pairwise distinct view counts. -/
theorem c7_amended_witness :
    ((get_videos (some [rowTieA, rowTieB]) (some "views_count") "desc").filter
        (fun a => videoLe "views_count" a ⟨1, "a", "u1", "2025-01-01", 100⟩ &&
          videoLe "views_count" ⟨1, "a", "u1", "2025-01-01", 100⟩ a)
      = (get_videos (some [rowTieA, rowTieB]) (some "views_count") "asc").filter
        (fun a => videoLe "views_count" a ⟨1, "a", "u1", "2025-01-01", 100⟩ &&
          videoLe "views_count" ⟨1, "a", "u1", "2025-01-01", 100⟩ a)) ∧
    get_videos (some [rowV300, rowV100, rowV200]) (some "views_count") "desc"
      = (get_videos (some [rowV300, rowV100, rowV200]) (some "views_count") "asc").reverse :=
  ⟨(c7_amended_desc_stability "views_count" (by decide) [rowTieA, rowTieB]
      ⟨1, "a", "u1", "2025-01-01", 100⟩).1,
   (c7_amended_desc_stability "views_count" (by decide) [rowV300, rowV100, rowV200]
      ⟨1, "a", "u1", "2025-01-01", 100⟩).2 (by decide)⟩

/-- Sequencing lemma: a skipped row in the middle of the file does not
change the outcome of the read loop. -/
theorem readRows_skip_middle (pre post : List RawRow) (r : RawRow)
    (h : decodeRow r = DecodeResult.skip) :
    readRows (pre ++ r :: post) = readRows (pre ++ post) := by
  induction pre with
  | nil => simp [readRows, h]
  | cons a pre ih =>
    simp only [List.cons_append, readRows, List.append_eq]
    rw [ih]

/-- Sequencing lemma: an aborting row anywhere in the file fails the
whole read, whatever comes before or after it. -/
theorem readRows_abort_middle (pre post : List RawRow) (r : RawRow)
    (h : decodeRow r = DecodeResult.abort) :
    readRows (pre ++ r :: post) = none := by
  induction pre with
  | nil => simp [readRows, h]
  | cons a pre ih =>
    simp only [List.cons_append, readRows, List.append_eq]
    rw [ih]
    cases decodeRow a <;> simp

/-- C6 counterexample: the two-row collection [rowV100, rowMal7] holds
one well-formed row and one row missing required fields (a short row
carrying only its id cell). The claim says List drops the malformed
row while decoding continues, yielding the well-formed record; the
code instead fails the whole read — DictReader fills the missing
columns with None and `int(None)` raises TypeError, which the per-row
`except (ValueError, KeyError)` does not catch — so List returns `[]`
and the well-formed record is lost too. -/
theorem c6_counterexample :
    decodeRow rowMal7 = DecodeResult.abort ∧
    get_videos (some [rowV100]) none "asc" = [⟨1, "alpha", "u1", "2025-01-01", 100⟩] ∧
    get_videos (some [rowV100, rowMal7]) none "asc" = [] := by
  exact ⟨by decide, by decide, by decide⟩

/-- C6 amended: a persisted row whose id or views_count text is
present but not integer text is dropped silently during List while
decoding continues for the remaining rows, and the collection of one
well-formed row and one non-integer-id row yields exactly the
well-formed record with no error; but a row missing a required field
— a short row, whose missing columns DictReader fills with None —
raises TypeError at `int(None)`, which the per-row handler does not
catch, so the whole read fails and List returns the empty sequence
instead of dropping just that row. -/
theorem c6_skip_bad_ints_abort_short_rows :
    (∀ (pre post : List RawRow) (r : RawRow) (sb : Option String) (order : String),
      decodeRow r = DecodeResult.skip →
      get_videos (some (pre ++ r :: post)) sb order
        = get_videos (some (pre ++ post)) sb order) ∧
    (∀ (pre post : List RawRow) (r : RawRow) (sb : Option String) (order : String),
      decodeRow r = DecodeResult.abort →
      get_videos (some (pre ++ r :: post)) sb order = []) ∧
    (∀ (r : RawRow) (s : String), r.views_count = some s → pyInt s = none →
      decodeRow r = DecodeResult.skip) ∧
    (∀ (r : RawRow) (s1 s2 : String), r.id = some s1 → pyInt s1 = none →
      r.views_count = some s2 → (pyInt s2).isSome = true →
      decodeRow r = DecodeResult.skip) ∧
    (∀ r : RawRow, r.views_count = none → decodeRow r = DecodeResult.abort) ∧
    get_videos (some [rowV100, rowBadId]) none "asc"
      = [⟨1, "alpha", "u1", "2025-01-01", 100⟩] := by
  refine ⟨?_, ?_, ?_, ?_, ?_, by decide⟩
  · intro pre post r sb order h
    simp only [get_videos, readRows_skip_middle pre post r h]
  · intro pre post r sb order h
    simp only [get_videos, readRows_abort_middle pre post r h]
  · intro r s hv hp
    rcases r with ⟨cells⟩
    match cells with
    | [] => simp [RawRow.views_count] at hv
    | [c1] => simp [RawRow.views_count] at hv
    | [c1, c2] => simp [RawRow.views_count] at hv
    | [c1, c2, c3] => simp [RawRow.views_count] at hv
    | [c1, c2, c3, c4] => simp [RawRow.views_count] at hv
    | c1 :: c2 :: c3 :: c4 :: c5 :: rest =>
      simp only [RawRow.views_count, List.getElem?_cons_succ,
        List.getElem?_cons_zero, Option.some.injEq] at hv
      subst hv
      simp [decodeRow, hp]
  · intro r s1 s2 hi hpi hv hpv
    rcases r with ⟨cells⟩
    match cells with
    | [] => simp [RawRow.views_count] at hv
    | [c1] => simp [RawRow.views_count] at hv
    | [c1, c2] => simp [RawRow.views_count] at hv
    | [c1, c2, c3] => simp [RawRow.views_count] at hv
    | [c1, c2, c3, c4] => simp [RawRow.views_count] at hv
    | c1 :: c2 :: c3 :: c4 :: c5 :: rest =>
      simp only [RawRow.views_count, List.getElem?_cons_succ,
        List.getElem?_cons_zero, Option.some.injEq] at hv
      simp only [RawRow.id, List.getElem?_cons_zero, Option.some.injEq] at hi
      subst hv
      subst hi
      rcases Option.isSome_iff_exists.mp hpv with ⟨n, hn⟩
      simp [decodeRow, hn, hpi]
  · intro r hv
    rcases r with ⟨cells⟩
    match cells with
    | [] => rfl
    | [c1] => rfl
    | [c1, c2] => rfl
    | [c1, c2, c3] => rfl
    | [c1, c2, c3, c4] => rfl
    | c1 :: c2 :: c3 :: c4 :: c5 :: rest =>
      simp [RawRow.views_count] at hv

/-- Witness for C6 amended: the skip rule applied to the concrete
non-integer-id row, the abort rule applied to the concrete short row,
and the decode outcomes of both rows. -/
theorem c6_witness :
    get_videos (some ([rowV100] ++ rowBadId :: [])) none "asc"
      = get_videos (some ([rowV100] ++ [])) none "asc" ∧
    get_videos (some ([rowV100] ++ rowMal7 :: [])) none "asc" = [] ∧
    decodeRow rowBadId = DecodeResult.skip ∧
    decodeRow rowMal7 = DecodeResult.abort :=
  ⟨c6_skip_bad_ints_abort_short_rows.1 [rowV100] [] rowBadId none "asc" (by decide),
   c6_skip_bad_ints_abort_short_rows.2.1 [rowV100] [] rowMal7 none "asc" (by decide),
   c6_skip_bad_ints_abort_short_rows.2.2.2.1 rowBadId "x" "90" (by decide) (by decide)
     (by decide) (by decide),
   c6_skip_bad_ints_abort_short_rows.2.2.2.2.1 rowMal7 (by decide)⟩

/-- C1 counterexample: the single-row collection whose id text is
`"05"` contains a record with id 5 (List decodes and returns it), yet
Add of a fresh record with id 5 succeeds and appends it, because the
duplicate check compares raw id text against `str(5) = "5"`. -/
theorem c1_counterexample :
    (get_videos (some [rowPad05]) none "asc").map Video.id = [5] ∧
    add_video (some [rowPad05]) ⟨5, "b", "u2", "2025-01-02", 20⟩
      = (true, some [rowPad05, encodeRow ⟨5, "b", "u2", "2025-01-02", 20⟩]) ∧
    (add_video (some [rowPad05]) ⟨5, "b", "u2", "2025-01-02", 20⟩).2
      ≠ some [rowPad05] := by
  refine ⟨by decide, by decide, by decide⟩

/-- C1 amended: Add fails with AlreadyExists and leaves the collection
unmodified exactly when some stored row's id text equals the decimal
rendering `str(R.id)` of the new record's id; otherwise it succeeds
and appends the encoded record, creating the collection (with its
header) when the file was absent or empty. On collections whose rows
are canonically encoded — as written by Add itself — the id-text
comparison coincides with record-id equality. -/
theorem c1_amended_add_duplicate_check (rows : List RawRow) (v : Video) :
    ((∃ r ∈ rows, r.id = some (toString v.id)) →
      add_video (some rows) v = (false, some rows)) ∧
    ((∀ r ∈ rows, r.id ≠ some (toString v.id)) →
      add_video (some rows) v = (true, some (rows ++ [encodeRow v]))) ∧
    add_video none v = (true, some [encodeRow v]) := by
  refine ⟨?_, ?_, rfl⟩
  · intro h
    have hany : rows.any (fun r => r.id == some (toString v.id)) = true := by
      rcases h with ⟨r, hr, he⟩
      exact List.any_eq_true.mpr ⟨r, hr, beq_iff_eq.mpr he⟩
    simp [add_video, hany]
  · intro h
    have hany : rows.any (fun r => r.id == some (toString v.id)) = false := by
      apply List.any_eq_false.mpr
      intro r hr hc
      exact h r hr (beq_iff_eq.mp hc)
    simp [add_video, hany]

/-- Witness for C1 amended: duplicate id 1 rejected without change,
fresh id 2 appended, and creation on an absent file. -/
theorem c1_amended_witness :
    add_video (some [rowV100]) ⟨1, "b", "u2", "2025-01-02", 20⟩
      = (false, some [rowV100]) ∧
    add_video (some [rowV100]) ⟨2, "b", "u2", "2025-01-02", 20⟩
      = (true, some ([rowV100] ++ [encodeRow ⟨2, "b", "u2", "2025-01-02", 20⟩])) ∧
    add_video none ⟨1, "b", "u2", "2025-01-02", 20⟩
      = (true, some [encodeRow ⟨1, "b", "u2", "2025-01-02", 20⟩]) :=
  ⟨(c1_amended_add_duplicate_check [rowV100] ⟨1, "b", "u2", "2025-01-02", 20⟩).1
      (by decide),
   (c1_amended_add_duplicate_check [rowV100] ⟨2, "b", "u2", "2025-01-02", 20⟩).2.1
      (by decide),
   (c1_amended_add_duplicate_check [rowV100] ⟨1, "b", "u2", "2025-01-02", 20⟩).2.2⟩

/-- C3 counterexample: a collection holding only the malformed row
with id text `"7"` contains no record with id 7 — List returns the
empty sequence — yet Delete(7) succeeds and rewrites the collection to
empty: matching is on raw row id text, not on decoded records. -/
theorem c3_counterexample :
    get_videos (some [rowMal7]) none "asc" = [] ∧
    delete_video (some [rowMal7]) 7 = (true, some []) := by
  exact ⟨by decide, by decide⟩

/-- C3 amended: Update and Delete fail with NotFound and leave the
backing collection unchanged (no write occurs) exactly when no stored
row — well-formed or not — has id text equal to `str(id)`; in
particular both fail without writing when the file is absent or
empty. On collections whose rows are canonically encoded this
condition coincides with "no record with that id is present". -/
theorem c3_amended_notfound_on_row_text (rows : List RawRow) (i : Int) (nv : Video)
    (h : ∀ r ∈ rows, r.id ≠ some (toString i)) :
    delete_video (some rows) i = (false, some rows) ∧
    update_video (some rows) i nv = ((false, none), some rows) ∧
    delete_video none i = (false, none) ∧
    update_video none i nv = ((false, none), none) := by
  have hany : rows.any (fun r => r.id == some (toString i)) = false := by
    apply List.any_eq_false.mpr
    intro r hr hc
    exact h r hr (beq_iff_eq.mp hc)
  refine ⟨?_, ?_, rfl, rfl⟩
  · simp [delete_video, hany]
  · simp [update_video, hany]

/-- Witness for C3 amended: id 9 matches no row of a concrete
two-row collection; both operations fail and change nothing. -/
theorem c3_amended_witness :
    delete_video (some [rowV100, rowV200]) 9 = (false, some [rowV100, rowV200]) ∧
    update_video (some [rowV100, rowV200]) 9 ⟨9, "b", "u", "2025-01-01", 1⟩
      = ((false, none), some [rowV100, rowV200]) ∧
    delete_video none 9 = (false, none) ∧
    update_video none 9 ⟨9, "b", "u", "2025-01-01", 1⟩ = ((false, none), none) :=
  c3_amended_notfound_on_row_text [rowV100, rowV200] 9 ⟨9, "b", "u", "2025-01-01", 1⟩
    (by decide)

theorem monthDays_le_31 (y m : Nat) : monthDays y m ≤ 31 := by
  unfold monthDays
  split_ifs <;> omega

theorem parseMonthRe_two (m1 m2 : Char) (rest : List Char)
    (hm1 : m1.isDigit = true) (hm2 : m2.isDigit = true)
    (h1 : 1 ≤ digit2 m1 m2) (h2 : digit2 m1 m2 ≤ 12) :
    parseMonthRe (m1 :: m2 :: rest) = some (digit2 m1 m2, rest) := by
  have hc : (m1.isDigit && m2.isDigit && 1 ≤ digit2 m1 m2 && digit2 m1 m2 ≤ 12) = true := by
    simp [hm1, hm2, h1, h2]
  simp only [parseMonthRe, hc, ↓reduceIte]

theorem month_two_digit_cond_false (m1 m2 : Char)
    (hnot : ¬(1 ≤ digit2 m1 m2 ∧ digit2 m1 m2 ≤ 12)) :
    (m1.isDigit && m2.isDigit && 1 ≤ digit2 m1 m2 && digit2 m1 m2 ≤ 12) = false := by
  by_cases hv : 1 ≤ digit2 m1 m2
  · have hy : ¬ digit2 m1 m2 ≤ 12 := fun hz => hnot ⟨hv, hz⟩
    simp [hy]
  · simp [hv]

theorem parseMonthRe_one (m1 m2 : Char) (rest : List Char)
    (hm1 : m1.isDigit = true)
    (hnot : ¬(1 ≤ digit2 m1 m2 ∧ digit2 m1 m2 ≤ 12))
    (h1 : 1 ≤ m1.toNat - 48) :
    parseMonthRe (m1 :: m2 :: rest) = some (m1.toNat - 48, m2 :: rest) := by
  have hc2 : (m1.isDigit && 1 ≤ m1.toNat - 48) = true := by
    simp [hm1, h1]
  simp only [parseMonthRe, month_two_digit_cond_false m1 m2 hnot, hc2,
    Bool.false_eq_true, ↓reduceIte]

theorem parseMonthRe_none (m1 m2 : Char) (rest : List Char)
    (hm2d : ¬(1 ≤ digit2 m1 m2 ∧ digit2 m1 m2 ≤ 12))
    (h1 : ¬ 1 ≤ m1.toNat - 48) :
    parseMonthRe (m1 :: m2 :: rest) = none := by
  have hc2 : (m1.isDigit && 1 ≤ m1.toNat - 48) = false := by
    simp [h1]
  simp only [parseMonthRe, month_two_digit_cond_false m1 m2 hm2d, hc2,
    Bool.false_eq_true, ↓reduceIte]

theorem parseDayRe_two (d1 d2 : Char) (rest : List Char)
    (hd1 : d1.isDigit = true) (hd2 : d2.isDigit = true)
    (h1 : 1 ≤ digit2 d1 d2) (h2 : digit2 d1 d2 ≤ 31) :
    parseDayRe (d1 :: d2 :: rest) = some (digit2 d1 d2, rest) := by
  have hc : (d1.isDigit && d2.isDigit && 1 ≤ digit2 d1 d2 && digit2 d1 d2 ≤ 31) = true := by
    simp [hd1, hd2, h1, h2]
  simp only [parseDayRe, hc, ↓reduceIte]

theorem day_two_digit_cond_false (d1 d2 : Char)
    (hnot : ¬(1 ≤ digit2 d1 d2 ∧ digit2 d1 d2 ≤ 31)) :
    (d1.isDigit && d2.isDigit && 1 ≤ digit2 d1 d2 && digit2 d1 d2 ≤ 31) = false := by
  by_cases hv : 1 ≤ digit2 d1 d2
  · have hy : ¬ digit2 d1 d2 ≤ 31 := fun hz => hnot ⟨hv, hz⟩
    simp [hy]
  · simp [hv]

theorem parseDayRe_one (d1 d2 : Char) (rest : List Char)
    (hd1 : d1.isDigit = true)
    (hnot : ¬(1 ≤ digit2 d1 d2 ∧ digit2 d1 d2 ≤ 31))
    (h1 : 1 ≤ d1.toNat - 48) :
    parseDayRe (d1 :: d2 :: rest) = some (d1.toNat - 48, d2 :: rest) := by
  have hc2 : (d1.isDigit && 1 ≤ d1.toNat - 48) = true := by
    simp [hd1, h1]
  simp only [parseDayRe, day_two_digit_cond_false d1 d2 hnot, hc2,
    Bool.false_eq_true, ↓reduceIte]

theorem parseDayRe_none (d1 d2 : Char) (rest : List Char)
    (hd2d : ¬(1 ≤ digit2 d1 d2 ∧ digit2 d1 d2 ≤ 31))
    (h1 : ¬ 1 ≤ d1.toNat - 48) :
    parseDayRe (d1 :: d2 :: rest) = none := by
  have hc2 : (d1.isDigit && 1 ≤ d1.toNat - 48) = false := by
    simp [h1]
  simp only [parseDayRe, day_two_digit_cond_false d1 d2 hd2d, hc2,
    Bool.false_eq_true, ↓reduceIte]

theorem specValid_false_of_month {y m d : Nat} (h : ¬(1 ≤ m ∧ m ≤ 12)) :
    specValidCalendarDate y m d = false := by
  by_cases h1 : 1 ≤ m
  · have h2 : ¬ m ≤ 12 := fun hz => h ⟨h1, hz⟩
    simp [specValidCalendarDate, h2]
  · simp [specValidCalendarDate, h1]

theorem specValid_false_of_day {y m d : Nat} (h : ¬(1 ≤ d ∧ d ≤ 31)) :
    specValidCalendarDate y m d = false := by
  by_cases h1 : 1 ≤ d
  · have h2 : ¬ d ≤ 31 := fun hz => h ⟨h1, hz⟩
    have h3 : ¬ d ≤ monthDays y m := fun hz => h2 (le_trans hz (monthDays_le_31 y m))
    simp [specValidCalendarDate, h3]
  · simp [specValidCalendarDate, h1]

/-- On strings of the strict `DDDD-DD-DD` shape, the `strptime` model
accepts exactly the valid calendar dates. -/
theorem strptimeDateOk_strict (y1 y2 y3 y4 m1 m2 d1 d2 : Char)
    (hy1 : y1.isDigit = true) (hy2 : y2.isDigit = true)
    (hy3 : y3.isDigit = true) (hy4 : y4.isDigit = true)
    (hm1 : m1.isDigit = true) (hm2 : m2.isDigit = true)
    (hd1 : d1.isDigit = true) (hd2 : d2.isDigit = true) :
    strptimeDateOk [y1, y2, y3, y4, '-', m1, m2, '-', d1, d2]
      = specValidCalendarDate (digit4 y1 y2 y3 y4) (digit2 m1 m2) (digit2 d1 d2) := by
  have hysep : (y1.isDigit && y2.isDigit && y3.isDigit && y4.isDigit
      && (('-' : Char) == '-')) = true := by
    simp [hy1, hy2, hy3, hy4]
  simp only [strptimeDateOk, parseYmdRe, hysep, ↓reduceIte]
  by_cases hm : 1 ≤ digit2 m1 m2 ∧ digit2 m1 m2 ≤ 12
  · rw [parseMonthRe_two m1 m2 ['-', d1, d2] hm1 hm2 hm.1 hm.2]
    simp only [beq_self_eq_true, ↓reduceIte]
    by_cases hd : 1 ≤ digit2 d1 d2 ∧ digit2 d1 d2 ≤ 31
    · rw [parseDayRe_two d1 d2 [] hd1 hd2 hd.1 hd.2]
      simp [specValidCalendarDate, hm.1, hm.2, hd.1]
    · rw [specValid_false_of_day hd]
      by_cases h1 : 1 ≤ d1.toNat - 48
      · rw [parseDayRe_one d1 d2 [] hd1 hd h1]
      · rw [parseDayRe_none d1 d2 [] hd h1]
  · rw [specValid_false_of_month hm]
    by_cases h1 : 1 ≤ m1.toNat - 48
    · rw [parseMonthRe_one m1 m2 ['-', d1, d2] hm1 hm h1]
      simp [isDigit_beq_minus hm2]
    · rw [parseMonthRe_none m1 m2 ['-', d1, d2] hm h1]

/-- With any character after the ten-character date shape, the
`strptime` model rejects: the day directive cannot consume the
remainder of the string. -/
theorem strptimeDateOk_strict_extra (y1 y2 y3 y4 m1 m2 d1 d2 c : Char)
    (hy1 : y1.isDigit = true) (hy2 : y2.isDigit = true)
    (hy3 : y3.isDigit = true) (hy4 : y4.isDigit = true)
    (hm1 : m1.isDigit = true) (hm2 : m2.isDigit = true)
    (hd1 : d1.isDigit = true) (hd2 : d2.isDigit = true) :
    strptimeDateOk [y1, y2, y3, y4, '-', m1, m2, '-', d1, d2, c] = false := by
  have hysep : (y1.isDigit && y2.isDigit && y3.isDigit && y4.isDigit
      && (('-' : Char) == '-')) = true := by
    simp [hy1, hy2, hy3, hy4]
  simp only [strptimeDateOk, parseYmdRe, hysep, ↓reduceIte]
  by_cases hm : 1 ≤ digit2 m1 m2 ∧ digit2 m1 m2 ≤ 12
  · rw [parseMonthRe_two m1 m2 ['-', d1, d2, c] hm1 hm2 hm.1 hm.2]
    simp only [beq_self_eq_true, ↓reduceIte]
    by_cases hd : 1 ≤ digit2 d1 d2 ∧ digit2 d1 d2 ≤ 31
    · rw [parseDayRe_two d1 d2 [c] hd1 hd2 hd.1 hd.2]
    · by_cases h1 : 1 ≤ d1.toNat - 48
      · rw [parseDayRe_one d1 d2 [c] hd1 hd h1]
      · rw [parseDayRe_none d1 d2 [c] hd h1]
  · by_cases h1 : 1 ≤ m1.toNat - 48
    · rw [parseMonthRe_one m1 m2 ['-', d1, d2, c] hm1 hm h1]
      simp [isDigit_beq_minus hm2]
    · rw [parseMonthRe_none m1 m2 ['-', d1, d2, c] hm h1]

theorem specAcceptDate_eq_strict_and_valid (y1 y2 y3 y4 s1 m1 m2 s2 d1 d2 : Char) :
    specAcceptDate [y1, y2, y3, y4, s1, m1, m2, s2, d1, d2]
      = (strict10 [y1, y2, y3, y4, s1, m1, m2, s2, d1, d2]
          && specValidCalendarDate (digit4 y1 y2 y3 y4) (digit2 m1 m2) (digit2 d1 d2)) := by
  simp only [specAcceptDate, strict10, Bool.and_assoc]

/-- On every character list, the composition of the Python regex model
and the `strptime` model coincides with the spec-side predicate
"fixed-width pattern and valid calendar date". -/
theorem validator_eq_specAccept (cs : List Char) :
    (pyDateRegexMatch cs && strptimeDateOk cs) = specAcceptDate cs := by
  match cs with
  | [] => rfl
  | [a] => rfl
  | [a, b] => rfl
  | [a, b, c] => rfl
  | [a, b, c, d] => rfl
  | [a, b, c, d, e] => rfl
  | [a, b, c, d, e, f] => rfl
  | [a, b, c, d, e, f, g] => rfl
  | [a, b, c, d, e, f, g, h] => rfl
  | [a, b, c, d, e, f, g, h, i] => rfl
  | [y1, y2, y3, y4, s1, m1, m2, s2, d1, d2] =>
    rw [specAcceptDate_eq_strict_and_valid]
    by_cases hs : strict10 [y1, y2, y3, y4, s1, m1, m2, s2, d1, d2] = true
    · have hfacts := hs
      simp only [strict10, Bool.and_eq_true, beq_iff_eq] at hfacts
      obtain ⟨⟨⟨⟨⟨⟨⟨⟨⟨hy1, hy2⟩, hy3⟩, hy4⟩, hs1⟩, hm1⟩, hm2⟩, hs2⟩, hd1⟩, hd2⟩ := hfacts
      subst hs1
      subst hs2
      have hregex : pyDateRegexMatch [y1, y2, y3, y4, '-', m1, m2, '-', d1, d2] = true := by
        simp only [pyDateRegexMatch, hs, Bool.true_or]
      rw [hregex, hs, Bool.true_and, Bool.true_and]
      exact strptimeDateOk_strict y1 y2 y3 y4 m1 m2 d1 d2 hy1 hy2 hy3 hy4 hm1 hm2 hd1 hd2
    · have hs0 : strict10 [y1, y2, y3, y4, s1, m1, m2, s2, d1, d2] = false :=
        Bool.not_eq_true _ ▸ Bool.of_not_eq_true hs
      rw [hs0, Bool.false_and]
      have hregex : pyDateRegexMatch [y1, y2, y3, y4, s1, m1, m2, s2, d1, d2] = false := by
        simp only [pyDateRegexMatch, hs0, Bool.false_or]
      rw [hregex, Bool.false_and]
  | [y1, y2, y3, y4, s1, m1, m2, s2, d1, d2, nl] =>
    have hrhs : specAcceptDate [y1, y2, y3, y4, s1, m1, m2, s2, d1, d2, nl] = false := rfl
    rw [hrhs]
    cases hnl : (nl == '\n') with
    | false =>
      have hregex : pyDateRegexMatch [y1, y2, y3, y4, s1, m1, m2, s2, d1, d2, nl]
          = false := by
        simp only [pyDateRegexMatch, hnl, Bool.false_and]
        rfl
      rw [hregex, Bool.false_and]
    | true =>
      by_cases hs : strict10 [y1, y2, y3, y4, s1, m1, m2, s2, d1, d2] = true
      · have hfacts := hs
        simp only [strict10, Bool.and_eq_true, beq_iff_eq] at hfacts
        obtain ⟨⟨⟨⟨⟨⟨⟨⟨⟨hy1, hy2⟩, hy3⟩, hy4⟩, hs1⟩, hm1⟩, hm2⟩, hs2⟩, hd1⟩, hd2⟩ := hfacts
        subst hs1
        subst hs2
        rw [strptimeDateOk_strict_extra y1 y2 y3 y4 m1 m2 d1 d2 nl
          hy1 hy2 hy3 hy4 hm1 hm2 hd1 hd2, Bool.and_false]
      · have hs0 : strict10 [y1, y2, y3, y4, s1, m1, m2, s2, d1, d2] = false :=
          Bool.not_eq_true _ ▸ Bool.of_not_eq_true hs
        have hregex : pyDateRegexMatch [y1, y2, y3, y4, s1, m1, m2, s2, d1, d2, nl]
            = false := by
          simp only [pyDateRegexMatch, hs0, hnl, Bool.true_and, Bool.false_or]
          rfl
        rw [hregex, Bool.false_and]
  | a :: b :: c :: d :: e :: f :: g :: h :: i :: j :: k :: l :: rest => rfl

/-- C5: the validator accepts a post_date string exactly when it both
matches the fixed-width `\d{4}-\d{2}-\d{2}` pattern and parses as a
valid calendar date (`specAcceptDate` is that conjunction, and
acceptance implies the pattern); in particular "2025-02-30" matches
the pattern yet is rejected — the calendar check is load-bearing —
while "2025-02-28" is accepted. -/
theorem c5_validator_iff_pattern_and_calendar :
    (∀ s : String, validate_date_format s = specAcceptDate s.toList) ∧
    (∀ cs : List Char, specAcceptDate cs = true → specFixedDatePattern cs = true) ∧
    specFixedDatePattern ("2025-02-30".toList) = true ∧
    validate_date_format "2025-02-30" = false ∧
    validate_date_format "2025-02-28" = true := by
  refine ⟨?_, ?_, by decide, by decide, by decide⟩
  · intro s
    exact validator_eq_specAccept s.toList
  · intro cs h
    match cs with
    | [] => exact (Bool.false_ne_true h).elim
    | [a] => exact (Bool.false_ne_true h).elim
    | [a, b] => exact (Bool.false_ne_true h).elim
    | [a, b, c] => exact (Bool.false_ne_true h).elim
    | [a, b, c, d] => exact (Bool.false_ne_true h).elim
    | [a, b, c, d, e] => exact (Bool.false_ne_true h).elim
    | [a, b, c, d, e, f] => exact (Bool.false_ne_true h).elim
    | [a, b, c, d, e, f, g] => exact (Bool.false_ne_true h).elim
    | [a, b, c, d, e, f, g, h2] => exact (Bool.false_ne_true h).elim
    | [a, b, c, d, e, f, g, h2, i] => exact (Bool.false_ne_true h).elim
    | [y1, y2, y3, y4, s1, m1, m2, s2, d1, d2] =>
      rw [specAcceptDate_eq_strict_and_valid, Bool.and_eq_true] at h
      exact h.1
    | a :: b :: c :: d :: e :: f :: g :: h2 :: i :: j :: k :: rest =>
      exact (Bool.false_ne_true h).elim

/-- Witness for C5's pattern-implication at a concrete accepted date. -/
theorem c5_witness :
    specFixedDatePattern ("2025-02-28".toList) = true :=
  c5_validator_iff_pattern_and_calendar.2.1 ("2025-02-28".toList) (by decide)

end VideoTracker
